import Mathlib

/-!
Shallow embedding of the Tribal-Hunter-Fanfare bot core: the currency ledger
(`cogs/coins.py`), the wagering engine (`cogs/game.py`) and the activity tracker
(`bot.py`).  Database tables are modelled as total maps keyed by
(guild_id, user_id); a missing row reads as the zero row, matching the code's
row auto-creation.  Randomness (shuffled decks, dice rolls) and the awaited
dice reply are passed in explicitly.  Definitions come first, theorems follow.
-/

namespace Fanfare

/-- Storage key of per-user records: (guild_id, user_id). -/
abbrev Key := Nat × Nat

/-- A row of the `coins` table: balance and last_claim (epoch seconds, 0 = never claimed). -/
structure CoinRow where
  balance : Int
  last_claim : Int
deriving DecidableEq

/-- Per-guild claim settings (claim_reward, claim_cooldown) with defaults applied.
Both are nonnegative: `claimcfg` rejects negative values and the defaults are 10 and 86400. -/
structure GuildSettings where
  claim_reward : Nat
  claim_cooldown : Nat
deriving DecidableEq

/-- The coins database: the `coins` table as a total map (a missing row reads as
balance 0, last_claim 0, matching `_get_user`/`_ensure_coins_row` auto-creation),
plus per-guild settings as resolved by `get_settings` (cache/DB/defaults merged). -/
structure CoinsDB where
  rows : Key → CoinRow
  settings : Nat → GuildSettings

/-- Pointwise update of a keyed map, modelling a single-row SQL upsert. -/
def setKey {α : Type} (f : Key → α) (k : Key) (v : α) : Key → α :=
  fun x => if x = k then v else f x

namespace Coins

/-- Coins._get_user: returns (balance, last_claim); row creation is invisible in the
total-map model. -/
def _get_user (db : CoinsDB) (gid uid : Nat) : Int × Int :=
  ((db.rows (gid, uid)).balance, (db.rows (gid, uid)).last_claim)

/-- Coins._set_user: upsert of balance and last_claim for one row. -/
def _set_user (db : CoinsDB) (gid uid : Nat) (balance last_claim : Int) : CoinsDB :=
  { db with rows := setKey db.rows (gid, uid) { balance := balance, last_claim := last_claim } }

/-- Coins._add_balance: the balance becomes max 0 (balance + delta); returns the new
balance ("never below zero"). -/
def _add_balance (db : CoinsDB) (gid uid : Nat) (delta : Int) : CoinsDB × Int :=
  let bal := (db.rows (gid, uid)).balance
  let last := (db.rows (gid, uid)).last_claim
  let new_bal := max 0 (bal + delta)
  (_set_user db gid uid new_bal last, new_bal)

/-- Outcome of the claim command. -/
inductive ClaimResult where
  | rewarded (newBalance : Int)
  | stillCoolingDown (remaining : Int)
deriving DecidableEq

/-- Coins.claim, with the current time (`int(time.time())`) passed explicitly. -/
def claim (db : CoinsDB) (gid uid : Nat) (now : Int) : CoinsDB × ClaimResult :=
  let reward := (db.settings gid).claim_reward
  let cooldown := (db.settings gid).claim_cooldown
  let bal := (db.rows (gid, uid)).balance
  let last := (db.rows (gid, uid)).last_claim
  let remaining := (cooldown : Int) - (now - last)
  if last ≠ 0 ∧ 0 < remaining then
    (db, ClaimResult.stillCoolingDown remaining)
  else
    (_set_user db gid uid (bal + (reward : Int)) now, ClaimResult.rewarded (bal + (reward : Int)))

/-- Outcome of the sharecoins command. -/
inductive TransferResult where
  | ok (newSender newReceiver : Int)
  | nonPositiveAmount
  | botReceiver
  | selfTransfer
  | insufficientFunds
deriving DecidableEq

/-- Whether a transfer outcome is the success case. -/
def TransferResult.isOk : TransferResult → Bool
  | .ok _ _ => true
  | _ => false

/-- Coins.sharecoins: validations in source order (amount, bot receiver, self transfer,
balance), then debit the sender and credit the receiver. -/
def sharecoins (db : CoinsDB) (gid senderId receiverId : Nat) (receiverIsBot : Bool)
    (amount : Int) : CoinsDB × TransferResult :=
  if amount ≤ 0 then (db, TransferResult.nonPositiveAmount)
  else if receiverIsBot then (db, TransferResult.botReceiver)
  else if receiverId = senderId then (db, TransferResult.selfTransfer)
  else
    let sbal := (db.rows (gid, senderId)).balance
    let slast := (db.rows (gid, senderId)).last_claim
    if sbal < amount then (db, TransferResult.insufficientFunds)
    else
      let rbal := (db.rows (gid, receiverId)).balance
      let rlast := (db.rows (gid, receiverId)).last_claim
      let db1 := _set_user db gid senderId (sbal - amount) slast
      let db2 := _set_user db1 gid receiverId (rbal + amount) rlast
      (db2, TransferResult.ok (sbal - amount) (rbal + amount))

/-- Outcome of the admin givecoins/takecoins commands. -/
inductive AdminResult where
  | ok (newBalance : Int)
  | rejected
deriving DecidableEq

/-- Coins.givecoins: admin grant; rejects nonpositive amounts and bot targets. -/
def givecoins (db : CoinsDB) (gid uid : Nat) (memberIsBot : Bool) (amount : Int) :
    CoinsDB × AdminResult :=
  if amount ≤ 0 then (db, AdminResult.rejected)
  else if memberIsBot then (db, AdminResult.rejected)
  else
    let r := _add_balance db gid uid amount
    (r.1, AdminResult.ok r.2)

/-- Coins.takecoins: admin revoke; the deduction is clamped to the current balance. -/
def takecoins (db : CoinsDB) (gid uid : Nat) (memberIsBot : Bool) (amount : Int) :
    CoinsDB × AdminResult :=
  if amount ≤ 0 then (db, AdminResult.rejected)
  else if memberIsBot then (db, AdminResult.rejected)
  else
    let current := (db.rows (gid, uid)).balance
    let deducted := min amount current
    let r := _add_balance db gid uid (-deducted)
    (r.1, AdminResult.ok r.2)

end Coins

namespace Games

/-- Games._get_balance (the row is auto-created; invisible in the total-map model). -/
def _get_balance (db : CoinsDB) (gid uid : Nat) : Int :=
  (db.rows (gid, uid)).balance

/-- Games._set_balance: updates the balance only.  The insert branch uses last_claim 0,
which in the total-map model coincides with keeping the default row's last_claim. -/
def _set_balance (db : CoinsDB) (gid uid : Nat) (new_bal : Int) : CoinsDB :=
  let row : CoinRow := { balance := new_bal, last_claim := (db.rows (gid, uid)).last_claim }
  { db with rows := setKey db.rows (gid, uid) row }

/-- Games._add_balance: same clamp-at-zero update as Coins._add_balance. -/
def _add_balance (db : CoinsDB) (gid uid : Nat) (delta : Int) : CoinsDB × Int :=
  let bal := _get_balance db gid uid
  let new_bal := max 0 (bal + delta)
  (_set_balance db gid uid new_bal, new_bal)

/-- Blackjack settlement result tags, as dispatched by `_bj_settle`. -/
inductive BJResult where
  | win
  | blackjack
  | lose
  | push
  | surrender
deriving DecidableEq

/-- Games._bj_settle: credit by result.  The source computes `int(bet * 2.5)` for a
natural; for the integer bets attainable here the float product is exact, so it equals
the floor `5 * bet / 2` in natural-number division. -/
def _bj_settle (db : CoinsDB) (gid uid : Nat) (bet : Nat) (result : BJResult) :
    CoinsDB × Int :=
  match result with
  | .win => _add_balance db gid uid ((2 * bet : Nat) : Int)
  | .blackjack => _add_balance db gid uid (((5 * bet) / 2 : Nat) : Int)
  | .push => _add_balance db gid uid (bet : Int)
  | .surrender => _add_balance db gid uid ((bet / 2 : Nat) : Int)
  | .lose => (db, _get_balance db gid uid)

end Games

/-- One balance-mutating operation of the system, as dispatched by the cogs:
admin grants/revokes, peer transfer, claim, the up-front wager debit, blackjack
settlement, and the dice payout credit. -/
inductive LedgerOp where
  | adminGive (gid uid : Nat) (isBot : Bool) (amount : Int)
  | adminTake (gid uid : Nat) (isBot : Bool) (amount : Int)
  | share (gid senderId receiverId : Nat) (receiverIsBot : Bool) (amount : Int)
  | claimOp (gid uid : Nat) (now : Int)
  | wagerDebit (gid uid : Nat) (bet : Nat)
  | settle (gid uid : Nat) (bet : Nat) (result : Games.BJResult)
  | dicePayout (gid uid : Nat) (amount : Nat)

/-- Apply one ledger operation to the coins database. -/
def applyOp (db : CoinsDB) : LedgerOp → CoinsDB
  | .adminGive g u b a => (Coins.givecoins db g u b a).1
  | .adminTake g u b a => (Coins.takecoins db g u b a).1
  | .share g s r b a => (Coins.sharecoins db g s r b a).1
  | .claimOp g u now => (Coins.claim db g u now).1
  | .wagerDebit g u bet => (Games._add_balance db g u (-(bet : Int))).1
  | .settle g u bet res => (Games._bj_settle db g u bet res).1
  | .dicePayout g u amt => (Games._add_balance db g u (amt : Int)).1

/-- Apply a sequence of ledger operations left to right. -/
def applyOps (db : CoinsDB) (ops : List LedgerOp) : CoinsDB :=
  ops.foldl applyOp db

/-- Every balance in the database is nonnegative. -/
def NonNeg (db : CoinsDB) : Prop := ∀ k : Key, 0 ≤ (db.rows k).balance

/-- Card rank, the prefix of a card string such as A♠ or 10♥. -/
inductive Rank where
  | ace
  | r2
  | r3
  | r4
  | r5
  | r6
  | r7
  | r8
  | r9
  | r10
  | jack
  | queen
  | king
deriving DecidableEq

/-- A card: rank plus a suit index 0..3; only the rank affects values. -/
structure Card where
  rank : Rank
  suit : Nat
deriving DecidableEq

/-- card_value: J/Q/K count 10, an ace counts 11 (soft/hard handled by hand_value),
a number card counts its number. -/
def card_value (c : Card) : Nat :=
  match c.rank with
  | .jack => 10
  | .queen => 10
  | .king => 10
  | .ace => 11
  | .r2 => 2
  | .r3 => 3
  | .r4 => 4
  | .r5 => 5
  | .r6 => 6
  | .r7 => 7
  | .r8 => 8
  | .r9 => 9
  | .r10 => 10

/-- Whether a card is an ace. -/
def isAce (c : Card) : Bool := c.rank = Rank.ace

/-- The while loop of hand_value: while total > 21 and an ace counted high remains,
downgrade one ace from 11 to 1 (subtract 10). -/
def adjust_aces : Nat → Nat → Nat
  | total, 0 => total
  | total, aces + 1 => if 21 < total then adjust_aces (total - 10) aces else total

/-- hand_value: sum of card values (aces high), then the downgrade loop. -/
def hand_value (cards : List Card) : Nat :=
  adjust_aces ((cards.map card_value).sum) (cards.countP isAce)

/-- Value of a card counting an ace as 1. -/
def low_value (c : Card) : Nat := if c.rank = Rank.ace then 1 else card_value c

/-- Largest k ≤ aces such that counting k aces high stays at 21 or below (0 if none). -/
def best_high (low : Nat) : Nat → Nat
  | 0 => 0
  | a + 1 => if low + 10 * (a + 1) ≤ 21 then a + 1 else best_high low a

/-- Specification-style hand value: count every ace as 1, then count high the largest
number of aces that keeps the total at 21 or below. -/
def hand_value_spec (cards : List Card) : Nat :=
  (cards.map low_value).sum + 10 * best_high ((cards.map low_value).sum) (cards.countP isAce)

/-- Live message counts (the message_counts table) and the per-user adjusted counts
(the per-user JSON files); a missing record reads as 0 in both, and stored adjusted
counts are clamped nonnegative on both read and write. -/
structure ActivityDB where
  message_counts : Key → Nat
  adjusted : Key → Nat

/-- Level thresholds, highest first. -/
def LEVELS : List (String × Nat) := [("LVMAX", 1000), ("LV3", 100), ("LV2", 10), ("LV1", 0)]

/-- Live count read from the message_counts table (0 when absent). -/
def _get_live_count (a : ActivityDB) (gid uid : Nat) : Nat := a.message_counts (gid, uid)

/-- Adjusted count read from the per-user file (0 when absent or invalid). -/
def _get_adjusted_count (a : ActivityDB) (gid uid : Nat) : Nat := a.adjusted (gid, uid)

/-- The level scan: first (name, threshold) with threshold at most the total. -/
def levelFor : List (String × Nat) → Nat → String
  | [], _ => "LV1"
  | (name, thr) :: rest, total => if thr ≤ total then name else levelFor rest total

/-- levels._get_total_and_level: total = live + adjusted and its level name. -/
def _get_total_and_level (a : ActivityDB) (gid uid : Nat) : Nat × String :=
  let total := _get_live_count a gid uid + _get_adjusted_count a gid uid
  (total, levelFor LEVELS total)

/-- levels._meets_level: whether the total reaches the threshold, plus total and name. -/
def _meets_level (a : ActivityDB) (gid uid thr : Nat) : Bool × Nat × String :=
  let t := _get_total_and_level a gid uid
  (decide (thr ≤ t.1), t.1, t.2)

/-- Python list.pop(): removes and returns the last element. -/
def popCard (deck : List Card) : Option (Card × List Card) :=
  match deck.getLast? with
  | none => none
  | some c => some (c, deck.dropLast)

/-- A blackjack session as stored in Games.bj_state. -/
structure BJState where
  bet : Nat
  deck : List Card
  player : List Card
  dealer : List Card
deriving DecidableEq

/-- State touched by the Games cog: the shared coins database, the activity data read
by the level gate, and the per-(guild, user) blackjack sessions. -/
structure GamesState where
  db : CoinsDB
  activity : ActivityDB
  bj_state : Key → Option BJState

namespace Games

/-- Games._dealer_play: the dealer draws while its hand value is below 17.  The third
component is false when the deck runs out mid-draw (the source would raise). -/
def _dealer_play (deck dealer : List Card) : List Card × List Card × Bool :=
  if hand_value dealer < 17 then
    match h : popCard deck with
    | none => (deck, dealer, false)
    | some cd => _dealer_play cd.2 (dealer ++ [cd.1])
  else (deck, dealer, true)
termination_by deck.length
decreasing_by
  have h3 : deck ≠ [] := by
    intro hnil
    rw [hnil] at h
    simp [popCard] at h
  have h4 : cd.2 = deck.dropLast := by
    unfold popCard at h
    rcases hg : deck.getLast? with _ | x
    · rw [hg] at h
      simp at h
    · rw [hg] at h
      rcases cd with ⟨c1, c2⟩
      simp [Prod.mk.injEq] at h
      exact h.2.symm
  rw [h4, List.length_dropLast]
  have h5 : 0 < deck.length := List.length_pos.mpr h3
  omega

/-- Outcome of the blackjack start command. -/
inductive BJStartOutcome where
  | needLevel (total : Nat) (lvl : String)
  | invalidBet
  | alreadyActive
  | insufficientFunds (balance : Int)
  | deckError
  | natural (result : BJResult) (player dealer : List Card) (newBal : Int)
  | inProgress (player dealer : List Card)
deriving DecidableEq

/-- Games.blackjack: start a round.  The freshly shuffled deck is passed explicitly;
cards are dealt from the end of the list, as list.pop() does: two to the player,
then two to the dealer.  Naturals settle and end the session immediately. -/
def blackjack (s : GamesState) (gid uid : Nat) (bet : Int) (shuffled : List Card) :
    GamesState × BJStartOutcome :=
  let ml := _meets_level s.activity gid uid 10
  if ml.1 = false then (s, BJStartOutcome.needLevel ml.2.1 ml.2.2)
  else if bet ≤ 0 then (s, BJStartOutcome.invalidBet)
  else if (s.bj_state (gid, uid)).isSome then (s, BJStartOutcome.alreadyActive)
  else
    let bal := _get_balance s.db gid uid
    if bal < bet then (s, BJStartOutcome.insufficientFunds bal)
    else
      let db1 := (_add_balance s.db gid uid (-bet)).1
      match popCard shuffled with
      | none => ({ s with db := db1 }, BJStartOutcome.deckError)
      | some (p1, d1) =>
        match popCard d1 with
        | none => ({ s with db := db1 }, BJStartOutcome.deckError)
        | some (p2, d2) =>
          match popCard d2 with
          | none => ({ s with db := db1 }, BJStartOutcome.deckError)
          | some (q1, d3) =>
            match popCard d3 with
            | none => ({ s with db := db1 }, BJStartOutcome.deckError)
            | some (q2, d4) =>
              let player := [p1, p2]
              let dealer := [q1, q2]
              let st : BJState :=
                { bet := bet.toNat, deck := d4, player := player, dealer := dealer }
              let s1 : GamesState :=
                { s with db := db1, bj_state := setKey s.bj_state (gid, uid) (some st) }
              let pv := hand_value player
              let dv := hand_value dealer
              if pv = 21 ∨ dv = 21 then
                let result :=
                  if pv = 21 ∧ ¬ dv = 21 then BJResult.blackjack
                  else if dv = 21 ∧ ¬ pv = 21 then BJResult.lose
                  else BJResult.push
                let r := _bj_settle s1.db gid uid bet.toNat result
                ({ s1 with db := r.1, bj_state := setKey s1.bj_state (gid, uid) none },
                 BJStartOutcome.natural result player dealer r.2)
              else (s1, BJStartOutcome.inProgress player dealer)

/-- Outcome of the blackjack stand/double actions. -/
inductive BJActionOutcome where
  | noHand
  | needMore (bet : Nat)
  | deckError
  | settled (result : BJResult) (player dealer : List Card) (newBal : Int)
deriving DecidableEq

/-- Games.bj_stand: the dealer plays out, the hands are compared, the round settles
at the tracked bet and the session ends.  deckError models the unreachable raise when
the deck runs out; the session then keeps the partial dealer hand. -/
def bj_stand (s : GamesState) (gid uid : Nat) : GamesState × BJActionOutcome :=
  match s.bj_state (gid, uid) with
  | none => (s, BJActionOutcome.noHand)
  | some st =>
    let dp := _dealer_play st.deck st.dealer
    if dp.2.2 = true then
      let pv := hand_value st.player
      let dv := hand_value dp.2.1
      let result :=
        if 21 < dv ∨ dv < pv then BJResult.win
        else if pv < dv then BJResult.lose
        else BJResult.push
      let r := _bj_settle s.db gid uid st.bet result
      ({ s with db := r.1, bj_state := setKey s.bj_state (gid, uid) none },
       BJActionOutcome.settled result st.player dp.2.1 r.2)
    else
      let st1 : BJState := { st with deck := dp.1, dealer := dp.2.1 }
      ({ s with bj_state := setKey s.bj_state (gid, uid) (some st1) },
       BJActionOutcome.deckError)

/-- Games.bj_double: requires the matching stake available; debits it, doubles the
tracked bet, draws exactly one card, checks the bust strictly before any dealer play,
and otherwise lets the dealer play out as in stand; the round settles at the doubled
bet and the session ends. -/
def bj_double (s : GamesState) (gid uid : Nat) : GamesState × BJActionOutcome :=
  match s.bj_state (gid, uid) with
  | none => (s, BJActionOutcome.noHand)
  | some st =>
    let bet := st.bet
    let bal := _get_balance s.db gid uid
    if bal < (bet : Int) then (s, BJActionOutcome.needMore bet)
    else
      let db1 := (_add_balance s.db gid uid (-(bet : Int))).1
      let bet2 := st.bet + bet
      match popCard st.deck with
      | none =>
        let st1 : BJState := { st with bet := bet2 }
        ({ s with db := db1, bj_state := setKey s.bj_state (gid, uid) (some st1) },
         BJActionOutcome.deckError)
      | some cd =>
        let player1 := st.player ++ [cd.1]
        let pv := hand_value player1
        if 21 < pv then
          let r := _bj_settle db1 gid uid bet2 BJResult.lose
          ({ s with db := r.1, bj_state := setKey s.bj_state (gid, uid) none },
           BJActionOutcome.settled BJResult.lose player1 st.dealer r.2)
        else
          let dp := _dealer_play cd.2 st.dealer
          if dp.2.2 = true then
            let dv := hand_value dp.2.1
            let result :=
              if 21 < dv ∨ dv < pv then BJResult.win
              else if pv < dv then BJResult.lose
              else BJResult.push
            let r := _bj_settle db1 gid uid bet2 result
            ({ s with db := r.1, bj_state := setKey s.bj_state (gid, uid) none },
             BJActionOutcome.settled result player1 dp.2.1 r.2)
          else
            let st1 : BJState :=
              { st with bet := bet2, deck := dp.1, player := player1, dealer := dp.2.1 }
            ({ s with db := db1, bj_state := setKey s.bj_state (gid, uid) (some st1) },
             BJActionOutcome.deckError)

/-- The single awaited reply of the dice wager: the wait timed out, the reply did not
parse as an integer, or it parsed as the integer n. -/
inductive DiceReply where
  | timeout
  | notAnInt
  | face (n : Int)
deriving DecidableEq

/-- Outcome of the diceroll command. -/
inductive DiceOutcome where
  | needLevel (total : Nat) (lvl : String)
  | invalidBet
  | insufficientFunds (balance : Int)
  | refundTimeout
  | refundNotAnInt
  | refundOutOfRange
  | doubleMatch (payout : Int) (newBal : Int)
  | oneMatch (payout : Int) (newBal : Int)
  | noMatch (newBal : Int)
deriving DecidableEq

/-- Games.diceroll: level gate, bet restricted to 10/50/100, balance check, up-front
debit, then one awaited reply; timeout or a bad reply refunds the bet, a valid face is
compared against the two rolls passed in (x10 on a double match, x3 on one match). -/
def diceroll (s : GamesState) (gid uid : Nat) (bet : Int) (reply : DiceReply)
    (roll1 roll2 : Nat) : GamesState × DiceOutcome :=
  let ml := _meets_level s.activity gid uid 10
  if ml.1 = false then (s, DiceOutcome.needLevel ml.2.1 ml.2.2)
  else if ¬ (bet = 10 ∨ bet = 50 ∨ bet = 100) then (s, DiceOutcome.invalidBet)
  else
    let bal := _get_balance s.db gid uid
    if bal < bet then (s, DiceOutcome.insufficientFunds bal)
    else
      let db1 := (_add_balance s.db gid uid (-bet)).1
      match reply with
      | .timeout => ({ s with db := (_add_balance db1 gid uid bet).1 }, DiceOutcome.refundTimeout)
      | .notAnInt => ({ s with db := (_add_balance db1 gid uid bet).1 }, DiceOutcome.refundNotAnInt)
      | .face n =>
        if n < 1 ∨ 6 < n then
          ({ s with db := (_add_balance db1 gid uid bet).1 }, DiceOutcome.refundOutOfRange)
        else
          let nmatches : Nat := (if (roll1 : Int) = n then 1 else 0)
            + (if (roll2 : Int) = n then 1 else 0)
          if nmatches = 2 then
            let payout := bet * 10
            let r := _add_balance db1 gid uid payout
            ({ s with db := r.1 }, DiceOutcome.doubleMatch payout r.2)
          else if nmatches = 1 then
            let payout := bet * 3
            let r := _add_balance db1 gid uid payout
            ({ s with db := r.1 }, DiceOutcome.oneMatch payout r.2)
          else
            ({ s with db := db1 }, DiceOutcome.noMatch (_get_balance db1 gid uid))

end Games

/-- Process state of bot.py: the activity data, the in-memory cooldown debounce
timestamps (epoch seconds, defaulting to 0), and the effective per-guild counting
cooldown as resolved by get_cooldown (cache, DB, or default merged). -/
structure BotState where
  activity : ActivityDB
  last_increment : Key → Int
  cooldown_cache : Nat → Nat

/-- Messages shorter than this (after stripping) are not counted. -/
def MIN_COUNTABLE_LEN : Nat := 3

/-- add_live_count: upsert count = count + delta, returning the new count. -/
def add_live_count (a : ActivityDB) (gid uid : Nat) (delta : Nat) : ActivityDB × Nat :=
  let newCount := a.message_counts (gid, uid) + delta
  ({ a with message_counts := setKey a.message_counts (gid, uid) newCount }, newCount)

/-- get_cooldown: the effective per-guild counting cooldown. -/
def get_cooldown (s : BotState) (gid : Nat) : Nat := s.cooldown_cache gid

/-- on_message restricted to its counting effect, for a guild message: content_len is
the length of the stripped message content; role reconciliation is external. -/
def on_message (s : BotState) (gid uid : Nat) (author_bot : Bool) (content_len : Nat)
    (now : Int) : BotState :=
  if author_bot then s
  else if content_len < MIN_COUNTABLE_LEN then s
  else if now - s.last_increment (gid, uid) < (get_cooldown s gid : Int) then s
  else
    { s with activity := (add_live_count s.activity gid uid 1).1,
             last_increment := setKey s.last_increment (gid, uid) now }

/-- get_total_count: the triple (total, adjusted, live) with total = adjusted + live. -/
def get_total_count (a : ActivityDB) (gid uid : Nat) : Nat × Nat × Nat :=
  let live := a.message_counts (gid, uid)
  let adjusted := a.adjusted (gid, uid)
  (adjusted + live, adjusted, live)

/-- set_adjusted_count: full overwrite of the stored adjusted count, clamped at 0. -/
def set_adjusted_count (a : ActivityDB) (gid uid : Nat) (adjusted_value : Int) : ActivityDB :=
  { a with adjusted := setKey a.adjusted (gid, uid) (max 0 adjusted_value).toNat }

/-- Outcome of the lv_set command. -/
inductive LvSetOutcome where
  | negativeTotal
  | ok (storedAdjusted : Nat)
deriving DecidableEq

/-- lv_set: pins a user's total by storing adjusted = max(0, provided_total - live). -/
def lv_set (s : BotState) (gid uid : Nat) (provided_total : Int) : BotState × LvSetOutcome :=
  if provided_total < 0 then (s, LvSetOutcome.negativeTotal)
  else
    let live := (get_total_count s.activity gid uid).2.2
    let adjusted := max 0 (provided_total - (live : Int))
    ({ s with activity := set_adjusted_count s.activity gid uid adjusted },
     LvSetOutcome.ok adjusted.toNat)

/-- Constant-valued coins database with default settings, used by concrete examples. -/
def constDB (bal : Int) : CoinsDB :=
  { rows := fun _ => { balance := bal, last_claim := 0 },
    settings := fun _ => { claim_reward := 10, claim_cooldown := 86400 } }

/-- Activity data with the same live count for every user and no adjusted counts,
used by concrete examples. -/
def constActivity (live : Nat) : ActivityDB :=
  { message_counts := fun _ => live, adjusted := fun _ => 0 }

/-! Theorems. -/

@[simp] theorem setKey_same {α : Type} (f : Key → α) (k : Key) (v : α) :
    setKey f k v k = v := by
  simp [setKey]

@[simp] theorem setKey_ne {α : Type} (f : Key → α) (k : Key) (v : α) (x : Key)
    (h : x ≠ k) : setKey f k v x = f x := by
  simp [setKey, h]

theorem setKey_setKey {α : Type} (f : Key → α) (k : Key) (v w : α) :
    setKey (setKey f k v) k w = setKey f k w := by
  funext x
  by_cases h : x = k <;> simp [setKey, h]

theorem addBalance_nonneg {db : CoinsDB} (h : NonNeg db) (g u : Nat) (d : Int) :
    NonNeg (Coins._add_balance db g u d).1 := by
  intro k
  by_cases hk : k = (g, u) <;>
    simp [Coins._add_balance, Coins._set_user, setKey, hk, le_max_left, h k]

theorem gamesAddBalance_nonneg {db : CoinsDB} (h : NonNeg db) (g u : Nat) (d : Int) :
    NonNeg (Games._add_balance db g u d).1 := by
  intro k
  by_cases hk : k = (g, u) <;>
    simp [Games._add_balance, Games._set_balance, Games._get_balance, setKey, hk,
      le_max_left, h k]

theorem applyOp_nonneg {db : CoinsDB} (h : NonNeg db) (op : LedgerOp) :
    NonNeg (applyOp db op) := by
  cases op with
  | adminGive g u b a =>
      simp only [applyOp, Coins.givecoins]
      split
      · exact h
      · split
        · exact h
        · exact addBalance_nonneg h g u a
  | adminTake g u b a =>
      simp only [applyOp, Coins.takecoins]
      split
      · exact h
      · split
        · exact h
        · exact addBalance_nonneg h g u _
  | share g s r b a =>
      simp only [applyOp, Coins.sharecoins]
      split
      · exact h
      · split
        · exact h
        · split
          · exact h
          · split
            · exact h
            · rename_i h1 h2 h3 h4
              have hsr : ¬ s = r := fun hh => h3 hh.symm
              intro k
              by_cases hr : k = (g, r)
              · simp [Coins._set_user, setKey, hr]
                have := h (g, r)
                omega
              · by_cases hs : k = (g, s)
                · simp [Coins._set_user, setKey, hr, hs, hsr]
                  omega
                · simp [Coins._set_user, setKey, hr, hs]
                  exact h k
  | claimOp g u now =>
      simp only [applyOp, Coins.claim]
      split
      · exact h
      · intro k
        by_cases hk : k = (g, u)
        · simp [Coins._set_user, setKey, hk]
          have := h (g, u)
          positivity
        · simp [Coins._set_user, setKey, hk]
          exact h k
  | wagerDebit g u bet => exact gamesAddBalance_nonneg h g u _
  | settle g u bet res =>
      cases res <;>
        first
          | exact gamesAddBalance_nonneg h g u _
          | exact h
  | dicePayout g u amt => exact gamesAddBalance_nonneg h g u _

theorem applyOps_nonneg {db : CoinsDB} (h : NonNeg db) (ops : List LedgerOp) :
    NonNeg (applyOps db ops) := by
  induction ops generalizing db with
  | nil => exact h
  | cons op rest ih => exact ih (applyOp_nonneg h op)

/-- C1: starting from nonnegative balances, every sequence of balance mutations
(admin add/revoke, transfer, claim, wager debit and settlement credit) keeps every
(guild, user) balance nonnegative; in particular `_add_balance` computes the new
balance as max 0 (oldBalance + delta) for every integer delta. -/
theorem c1_balance_invariant (db : CoinsDB) (h : NonNeg db) :
    (∀ ops : List LedgerOp, NonNeg (applyOps db ops)) ∧
    (∀ gid uid : Nat, ∀ delta : Int,
      (Coins._add_balance db gid uid delta).2
        = max 0 ((db.rows (gid, uid)).balance + delta)) :=
  ⟨fun ops => applyOps_nonneg h ops, fun _ _ _ => rfl⟩

/-- Witness for C1 at a concrete zero-balance database and operation list. -/
theorem c1_balance_invariant_witness :
    NonNeg (applyOps
      { rows := fun _ => { balance := 0, last_claim := 0 },
        settings := fun _ => { claim_reward := 10, claim_cooldown := 86400 } }
      [LedgerOp.adminGive 1 1 false 30, LedgerOp.wagerDebit 1 1 100,
       LedgerOp.settle 1 1 10 Games.BJResult.blackjack,
       LedgerOp.share 1 1 2 false 5, LedgerOp.claimOp 1 2 1700000000]) :=
  (c1_balance_invariant _ (fun _ => le_refl 0)).1 _

/-- C2: sharecoins rejects with no mutation exactly when the amount is nonpositive,
the transfer is to self, the receiver is a bot, or the sender balance is short;
otherwise it debits the sender and credits the receiver by exactly the amount,
conserving the sum of the two balances, and a sender whose balance equals the
amount ends at 0. -/
theorem c2_sharecoins_spec (db : CoinsDB) (gid senderId receiverId : Nat)
    (receiverIsBot : Bool) (amount : Int) :
    (((Coins.sharecoins db gid senderId receiverId receiverIsBot amount).2.isOk = false) ↔
      (amount ≤ 0 ∨ receiverId = senderId ∨ receiverIsBot = true ∨
        (db.rows (gid, senderId)).balance < amount)) ∧
    ((amount ≤ 0 ∨ receiverId = senderId ∨ receiverIsBot = true ∨
        (db.rows (gid, senderId)).balance < amount) →
      (Coins.sharecoins db gid senderId receiverId receiverIsBot amount).1 = db) ∧
    (¬ (amount ≤ 0 ∨ receiverId = senderId ∨ receiverIsBot = true ∨
        (db.rows (gid, senderId)).balance < amount) →
      ((Coins.sharecoins db gid senderId receiverId receiverIsBot amount).1.rows
          (gid, senderId)).balance = (db.rows (gid, senderId)).balance - amount ∧
      ((Coins.sharecoins db gid senderId receiverId receiverIsBot amount).1.rows
          (gid, receiverId)).balance = (db.rows (gid, receiverId)).balance + amount ∧
      ((Coins.sharecoins db gid senderId receiverId receiverIsBot amount).1.rows
          (gid, senderId)).balance +
        ((Coins.sharecoins db gid senderId receiverId receiverIsBot amount).1.rows
          (gid, receiverId)).balance
        = (db.rows (gid, senderId)).balance + (db.rows (gid, receiverId)).balance ∧
      ((db.rows (gid, senderId)).balance = amount →
        ((Coins.sharecoins db gid senderId receiverId receiverIsBot amount).1.rows
          (gid, senderId)).balance = 0)) := by
  simp only [Coins.sharecoins]
  split_ifs with h1 h2 h3 h4
  · simp [Coins.TransferResult.isOk, h1]
  · simp [Coins.TransferResult.isOk, h1, h2]
  · simp [Coins.TransferResult.isOk, h1, h2, h3]
  · simp [Coins.TransferResult.isOk, h1, h2, h3, h4]
  · have hsr : senderId ≠ receiverId := fun hh => h3 hh.symm
    refine ⟨by simp [Coins.TransferResult.isOk, h1, h2, h3, h4], ?_, ?_⟩
    · intro hf
      rcases hf with hf | hf | hf | hf
      · exact absurd hf h1
      · exact absurd hf h3
      · exact absurd hf h2
      · exact absurd hf h4
    · intro _
      simp only [Coins._set_user, setKey, Prod.mk.injEq]
      simp [hsr, h3]
      omega

/-- Witness for C2 at a concrete database: sender balance 40 transfers all 40. -/
theorem c2_sharecoins_spec_witness :
    ((Coins.sharecoins
      { rows := fun k => if k = ((1, 1) : Key) then { balance := 40, last_claim := 0 }
          else { balance := 7, last_claim := 0 },
        settings := fun _ => { claim_reward := 10, claim_cooldown := 86400 } }
      1 1 2 false 40).1.rows (1, 1)).balance = 0 ∧
    ((Coins.sharecoins
      { rows := fun k => if k = ((1, 1) : Key) then { balance := 40, last_claim := 0 }
          else { balance := 7, last_claim := 0 },
        settings := fun _ => { claim_reward := 10, claim_cooldown := 86400 } }
      1 1 2 false 40).1.rows (1, 2)).balance = 47 := by
  have h := (c2_sharecoins_spec
    { rows := fun k => if k = ((1, 1) : Key) then { balance := 40, last_claim := 0 }
        else { balance := 7, last_claim := 0 },
      settings := fun _ => { claim_reward := 10, claim_cooldown := 86400 } }
    1 1 2 false 40).2.2 (by decide)
  refine ⟨h.2.2.2 (by decide), ?_⟩
  have h2 := h.2.1
  simpa using h2

/-- C3: with last_claim = 0 a claim always succeeds immediately, crediting the
per-guild reward and setting last_claim to now; a second claim at the same positive
now with positive cooldown returns StillCoolingDown with remaining equal to the
configured cooldown, leaving balance and last_claim unchanged. -/
theorem c3_claim_cooldown (db : CoinsDB) (gid uid : Nat) (now : Int)
    (hlast : (db.rows (gid, uid)).last_claim = 0)
    (hnow : 0 < now) (hcd : 0 < (db.settings gid).claim_cooldown) :
    ((Coins.claim db gid uid now).2
        = Coins.ClaimResult.rewarded
            ((db.rows (gid, uid)).balance + ((db.settings gid).claim_reward : Int))) ∧
    (((Coins.claim db gid uid now).1.rows (gid, uid)).balance
        = (db.rows (gid, uid)).balance + ((db.settings gid).claim_reward : Int)) ∧
    (((Coins.claim db gid uid now).1.rows (gid, uid)).last_claim = now) ∧
    (Coins.claim (Coins.claim db gid uid now).1 gid uid now
        = ((Coins.claim db gid uid now).1,
           Coins.ClaimResult.stillCoolingDown ((db.settings gid).claim_cooldown : Int))) := by
  have h0 : ¬ ((db.rows (gid, uid)).last_claim ≠ 0 ∧
      0 < ((db.settings gid).claim_cooldown : Int)
        - (now - (db.rows (gid, uid)).last_claim)) := by
    rw [hlast]
    simp
  have hfirst : Coins.claim db gid uid now
      = (Coins._set_user db gid uid ((db.rows (gid, uid)).balance
            + ((db.settings gid).claim_reward : Int)) now,
         Coins.ClaimResult.rewarded ((db.rows (gid, uid)).balance
            + ((db.settings gid).claim_reward : Int))) := by
    simp only [Coins.claim]
    rw [if_neg h0]
  have hrow : (Coins.claim db gid uid now).1.rows (gid, uid)
      = { balance := (db.rows (gid, uid)).balance + ((db.settings gid).claim_reward : Int),
          last_claim := now } := by
    rw [hfirst]
    simp [Coins._set_user]
  have hset : (Coins.claim db gid uid now).1.settings = db.settings := by
    rw [hfirst]
    rfl
  refine ⟨by rw [hfirst], by rw [hrow], by rw [hrow], ?_⟩
  set db1 := (Coins.claim db gid uid now).1 with hdb1
  have hc : (db1.rows (gid, uid)).last_claim ≠ 0 ∧
      0 < (((db1.settings gid).claim_cooldown : Int)
        - (now - (db1.rows (gid, uid)).last_claim)) := by
    rw [hrow, hset]
    refine ⟨?_, ?_⟩
    · show now ≠ 0
      omega
    · show 0 < ((db.settings gid).claim_cooldown : Int) - (now - now)
      omega
  simp only [Coins.claim]
  rw [if_pos hc, hrow, hset]
  simp

/-- Witness for C3 at a concrete fresh user and default settings. -/
theorem c3_claim_cooldown_witness :
    (Coins.claim
      { rows := fun _ => { balance := 0, last_claim := 0 },
        settings := fun _ => { claim_reward := 10, claim_cooldown := 86400 } }
      1 1 1700000000).2 = Coins.ClaimResult.rewarded 10 ∧
    Coins.claim (Coins.claim
      { rows := fun _ => { balance := 0, last_claim := 0 },
        settings := fun _ => { claim_reward := 10, claim_cooldown := 86400 } }
      1 1 1700000000).1 1 1 1700000000
      = ((Coins.claim
          { rows := fun _ => { balance := 0, last_claim := 0 },
            settings := fun _ => { claim_reward := 10, claim_cooldown := 86400 } }
          1 1 1700000000).1,
         Coins.ClaimResult.stillCoolingDown 86400) := by
  have h := c3_claim_cooldown
    { rows := fun _ => { balance := 0, last_claim := 0 },
      settings := fun _ => { claim_reward := 10, claim_cooldown := 86400 } }
    1 1 1700000000 (by decide) (by decide) (by decide)
  exact ⟨h.1, h.2.2.2⟩

/-- C4: blackjack settlement credits back exactly 2*b on a win, floor(b*2.5) on a
player natural, b on a push, floor(b/2) on a surrender, and 0 on a loss; after the
up-front debit, b=10 yields net +15 for a natural and net 0 for a push, and b=11
surrender nets -6. -/
theorem c4_bj_settle (db : CoinsDB) (gid uid : Nat) (b : Nat) (hb : 0 < b)
    (h0 : 0 ≤ (db.rows (gid, uid)).balance) :
    ((Games._bj_settle db gid uid b Games.BJResult.win).2
        = (db.rows (gid, uid)).balance + ((2 * b : Nat) : Int)) ∧
    ((Games._bj_settle db gid uid b Games.BJResult.blackjack).2
        = (db.rows (gid, uid)).balance + (((5 * b) / 2 : Nat) : Int)) ∧
    ((Games._bj_settle db gid uid b Games.BJResult.push).2
        = (db.rows (gid, uid)).balance + (b : Int)) ∧
    ((Games._bj_settle db gid uid b Games.BJResult.surrender).2
        = (db.rows (gid, uid)).balance + ((b / 2 : Nat) : Int)) ∧
    ((Games._bj_settle db gid uid b Games.BJResult.lose).2
        = (db.rows (gid, uid)).balance) ∧
    (10 ≤ (db.rows (gid, uid)).balance →
      (Games._bj_settle (Games._add_balance db gid uid (-10)).1 gid uid 10
          Games.BJResult.blackjack).2 = (db.rows (gid, uid)).balance + 15 ∧
      (Games._bj_settle (Games._add_balance db gid uid (-10)).1 gid uid 10
          Games.BJResult.push).2 = (db.rows (gid, uid)).balance) ∧
    (11 ≤ (db.rows (gid, uid)).balance →
      (Games._bj_settle (Games._add_balance db gid uid (-11)).1 gid uid 11
          Games.BJResult.surrender).2 = (db.rows (gid, uid)).balance - 6) := by
  simp only [Games._bj_settle, Games._add_balance, Games._set_balance,
    Games._get_balance, setKey_same]
  refine ⟨by omega, by omega, by omega, by omega, trivial,
    fun hh => by omega, fun hh => by omega⟩

/-- Witness for C4 at balance 100 and bet 10. -/
theorem c4_bj_settle_witness :
    (Games._bj_settle
      { rows := fun _ => { balance := 100, last_claim := 0 },
        settings := fun _ => { claim_reward := 10, claim_cooldown := 86400 } }
      1 1 10 Games.BJResult.win).2 = 120 ∧
    (Games._bj_settle
      { rows := fun _ => { balance := 100, last_claim := 0 },
        settings := fun _ => { claim_reward := 10, claim_cooldown := 86400 } }
      1 1 10 Games.BJResult.blackjack).2 = 125 := by
  have h := c4_bj_settle
    { rows := fun _ => { balance := 100, last_claim := 0 },
      settings := fun _ => { claim_reward := 10, claim_cooldown := 86400 } }
    1 1 10 (by decide) (by decide)
  exact ⟨by simpa using h.1, by simpa using h.2.1⟩

theorem adjust_aces_eq (low : Nat) :
    ∀ a : Nat, adjust_aces (low + 10 * a) a = low + 10 * best_high low a := by
  intro a
  induction a with
  | zero => simp [adjust_aces, best_high]
  | succ n ih =>
      rcases le_or_lt (low + 10 * (n + 1)) 21 with h | h
      · rw [adjust_aces, if_neg (by omega), best_high, if_pos h]
      · rw [adjust_aces, if_pos h, best_high, if_neg (by omega)]
        have hsub : low + 10 * (n + 1) - 10 = low + 10 * n := by omega
        rw [hsub, ih]

theorem card_value_split (c : Card) :
    card_value c = low_value c + (if isAce c then 10 else 0) := by
  rcases c with ⟨r, s⟩
  cases r <;> simp [card_value, low_value, isAce]

theorem sum_card_values (cards : List Card) :
    (cards.map card_value).sum = (cards.map low_value).sum + 10 * cards.countP isAce := by
  induction cards with
  | nil => simp
  | cons c cs ih =>
      simp only [List.map_cons, List.sum_cons, List.countP_cons, ih, card_value_split c]
      by_cases hc : isAce c <;> simp [hc] <;> ring

/-- C5: hand_value counts each ace as 11 and then, while the total exceeds 21 and an
ace counted high remains, converts one such ace to 1; equivalently (the proved
characterisation) it counts high exactly the largest number of aces that keeps the
total at 21 or below; [A,A,9] evaluates to 21 and [A,A,A,9] evaluates to 12. -/
theorem c5_hand_value (cards : List Card) :
    hand_value cards = hand_value_spec cards ∧
    hand_value [⟨Rank.ace, 0⟩, ⟨Rank.ace, 1⟩, ⟨Rank.r9, 2⟩] = 21 ∧
    hand_value [⟨Rank.ace, 0⟩, ⟨Rank.ace, 1⟩, ⟨Rank.ace, 2⟩, ⟨Rank.r9, 3⟩] = 12 := by
  refine ⟨?_, by decide, by decide⟩
  unfold hand_value hand_value_spec
  rw [sum_card_values]
  exact adjust_aces_eq _ _

/-- C6: double on an in-progress session with tracked bet b rejects without mutation
when the balance is below b; otherwise it debits an additional b, doubles the tracked
bet to 2b, deals exactly one card, and checks the bust strictly before any dealer
draw: a bust ends the session immediately as a loss settled at the doubled bet with
the dealer drawing nothing, and otherwise the action coincides with stand on the
debited session holding the doubled bet and the drawn card; the session ends either
way once the dealer can play out. -/
theorem c6_bj_double (s : GamesState) (gid uid : Nat) (st : BJState)
    (hs : s.bj_state (gid, uid) = some st) :
    (Games._get_balance s.db gid uid < (st.bet : Int) →
      Games.bj_double s gid uid = (s, Games.BJActionOutcome.needMore st.bet)) ∧
    (∀ c : Card, ∀ deck1 : List Card,
      (st.bet : Int) ≤ Games._get_balance s.db gid uid →
      popCard st.deck = some (c, deck1) →
      ((21 < hand_value (st.player ++ [c]) →
        Games.bj_double s gid uid
          = ({ s with
                db := (Games._add_balance s.db gid uid (-(st.bet : Int))).1,
                bj_state := setKey s.bj_state (gid, uid) none },
             Games.BJActionOutcome.settled Games.BJResult.lose (st.player ++ [c])
               st.dealer (Games._get_balance s.db gid uid - (st.bet : Int)))) ∧
       (¬ 21 < hand_value (st.player ++ [c]) →
        (Games.bj_double s gid uid
          = Games.bj_stand
              { s with
                  db := (Games._add_balance s.db gid uid (-(st.bet : Int))).1,
                  bj_state := setKey s.bj_state (gid, uid)
                    (some { bet := 2 * st.bet, deck := deck1,
                            player := st.player ++ [c], dealer := st.dealer }) }
              gid uid) ∧
        ((Games._dealer_play deck1 st.dealer).2.2 = true →
          (Games.bj_double s gid uid).1.bj_state (gid, uid) = none)))) := by
  constructor
  · intro hlt
    simp only [Games.bj_double, hs]
    rw [if_pos hlt]
  · intro c deck1 hle hpop
    have hnlt : ¬ (Games._get_balance s.db gid uid < (st.bet : Int)) := by omega
    constructor
    · intro hbust
      have hnlt2 : ¬ (s.db.rows (gid, uid)).balance < (st.bet : Int) := hnlt
      have hle2 : (st.bet : Int) ≤ (s.db.rows (gid, uid)).balance := hle
      simp [Games.bj_double, hs, hpop, hnlt2, hbust, Games._bj_settle,
        Games._add_balance, Games._get_balance, Games._set_balance]
      omega
    · intro hbustn
      have h2m : (2 : Nat) * st.bet = st.bet + st.bet := two_mul st.bet
      constructor
      · simp only [h2m, Games.bj_double, Games.bj_stand, hs, hpop, setKey_same,
          setKey_setKey]
        rw [if_neg hnlt, if_neg hbustn]
      · intro hdp
        simp only [Games.bj_double, hs, hpop]
        rw [if_neg hnlt, if_neg hbustn]
        simp only [hdp, if_true, ite_true]
        simp [hdp]

/-- Witness for C6: bust after doubling a 10-coin bet at balance 50 loses and ends at 40. -/
theorem c6_bj_double_witness :
    (Games.bj_double
      { db := constDB 50, activity := constActivity 20,
        bj_state := fun k => if k = ((1, 1) : Key) then
          some { bet := 10, deck := [⟨Rank.r8, 2⟩],
                 player := [⟨Rank.king, 0⟩, ⟨Rank.r6, 1⟩],
                 dealer := [⟨Rank.r9, 0⟩, ⟨Rank.r5, 1⟩] } else none }
      1 1).2
      = Games.BJActionOutcome.settled Games.BJResult.lose
          [⟨Rank.king, 0⟩, ⟨Rank.r6, 1⟩, ⟨Rank.r8, 2⟩] [⟨Rank.r9, 0⟩, ⟨Rank.r5, 1⟩] 40 := by
  have h := ((c6_bj_double
      { db := constDB 50, activity := constActivity 20,
        bj_state := fun k => if k = ((1, 1) : Key) then
          some { bet := 10, deck := [⟨Rank.r8, 2⟩],
                 player := [⟨Rank.king, 0⟩, ⟨Rank.r6, 1⟩],
                 dealer := [⟨Rank.r9, 0⟩, ⟨Rank.r5, 1⟩] } else none }
      1 1
      { bet := 10, deck := [⟨Rank.r8, 2⟩],
        player := [⟨Rank.king, 0⟩, ⟨Rank.r6, 1⟩],
        dealer := [⟨Rank.r9, 0⟩, ⟨Rank.r5, 1⟩] }
      rfl).2 ⟨Rank.r8, 2⟩ [] (by decide) (by decide)).1 (by decide)
  rw [h]
  rfl

/-- C10: a user whose total activity (live plus adjusted) is below 10, the LV2
threshold, is rejected by both game starts with the level message before any balance
debit, bet validation or session creation: the state is returned unchanged for every
bet, deck and reply. -/
theorem c10_level_gate (s : GamesState) (gid uid : Nat)
    (h : _get_live_count s.activity gid uid + _get_adjusted_count s.activity gid uid < 10) :
    (∀ bet : Int, ∀ shuffled : List Card,
      Games.blackjack s gid uid bet shuffled
        = (s, Games.BJStartOutcome.needLevel
            (_get_total_and_level s.activity gid uid).1
            (_get_total_and_level s.activity gid uid).2)) ∧
    (∀ bet : Int, ∀ reply : Games.DiceReply, ∀ roll1 roll2 : Nat,
      Games.diceroll s gid uid bet reply roll1 roll2
        = (s, Games.DiceOutcome.needLevel
            (_get_total_and_level s.activity gid uid).1
            (_get_total_and_level s.activity gid uid).2)) := by
  have hml : (_meets_level s.activity gid uid 10).1 = false := by
    simp only [_meets_level, _get_total_and_level, decide_eq_false_iff_not]
    omega
  constructor
  · intro bet shuffled
    simp only [Games.blackjack]
    rw [if_pos hml]
    rfl
  · intro bet reply roll1 roll2
    simp only [Games.diceroll]
    rw [if_pos hml]
    rfl

/-- Witness for C10: total 5 is rejected by both games, even at an invalid bet. -/
theorem c10_level_gate_witness :
    Games.blackjack
      { db := constDB 50, activity := constActivity 5, bj_state := fun _ => none }
      1 1 (-5) []
      = ({ db := constDB 50, activity := constActivity 5, bj_state := fun _ => none },
         Games.BJStartOutcome.needLevel 5 "LV1") ∧
    Games.diceroll
      { db := constDB 50, activity := constActivity 5, bj_state := fun _ => none }
      1 1 7 Games.DiceReply.timeout 1 1
      = ({ db := constDB 50, activity := constActivity 5, bj_state := fun _ => none },
         Games.DiceOutcome.needLevel 5 "LV1") := by
  have h := c10_level_gate
    { db := constDB 50, activity := constActivity 5, bj_state := fun _ => none }
    1 1 (by decide)
  exact ⟨h.1 (-5) [], h.2 7 Games.DiceReply.timeout 1 1⟩

/-- C7: with the LV2 gate passed, a permitted bet and sufficient balance, the dice
wager debits the bet up front and settles exactly once by cases on the single awaited
reply: a timeout or a malformed or out-of-range reply restores the balance exactly
(net 0, no payout); a valid face credits bet*10 when both rolls match, bet*3 when
exactly one matches, and nothing when none does. -/
theorem c7_diceroll (s : GamesState) (gid uid : Nat) (bet n : Int) (roll1 roll2 : Nat)
    (hlvl : 10 ≤ _get_live_count s.activity gid uid + _get_adjusted_count s.activity gid uid)
    (hbet : bet = 10 ∨ bet = 50 ∨ bet = 100)
    (hbal : bet ≤ Games._get_balance s.db gid uid) :
    (((Games.diceroll s gid uid bet Games.DiceReply.timeout roll1 roll2).1.db.rows
        (gid, uid)).balance = (s.db.rows (gid, uid)).balance ∧
      (Games.diceroll s gid uid bet Games.DiceReply.timeout roll1 roll2).2
        = Games.DiceOutcome.refundTimeout) ∧
    (((Games.diceroll s gid uid bet Games.DiceReply.notAnInt roll1 roll2).1.db.rows
        (gid, uid)).balance = (s.db.rows (gid, uid)).balance ∧
      (Games.diceroll s gid uid bet Games.DiceReply.notAnInt roll1 roll2).2
        = Games.DiceOutcome.refundNotAnInt) ∧
    ((n < 1 ∨ 6 < n) →
      ((Games.diceroll s gid uid bet (Games.DiceReply.face n) roll1 roll2).1.db.rows
        (gid, uid)).balance = (s.db.rows (gid, uid)).balance ∧
      (Games.diceroll s gid uid bet (Games.DiceReply.face n) roll1 roll2).2
        = Games.DiceOutcome.refundOutOfRange) ∧
    (1 ≤ n → n ≤ 6 →
      (((roll1 : Int) = n ∧ (roll2 : Int) = n) →
        ((Games.diceroll s gid uid bet (Games.DiceReply.face n) roll1 roll2).1.db.rows
          (gid, uid)).balance = (s.db.rows (gid, uid)).balance + 9 * bet ∧
        (Games.diceroll s gid uid bet (Games.DiceReply.face n) roll1 roll2).2
          = Games.DiceOutcome.doubleMatch (bet * 10)
              ((s.db.rows (gid, uid)).balance + 9 * bet)) ∧
      ((((roll1 : Int) = n ∧ ¬ (roll2 : Int) = n) ∨
        (¬ (roll1 : Int) = n ∧ (roll2 : Int) = n)) →
        ((Games.diceroll s gid uid bet (Games.DiceReply.face n) roll1 roll2).1.db.rows
          (gid, uid)).balance = (s.db.rows (gid, uid)).balance + 2 * bet ∧
        (Games.diceroll s gid uid bet (Games.DiceReply.face n) roll1 roll2).2
          = Games.DiceOutcome.oneMatch (bet * 3)
              ((s.db.rows (gid, uid)).balance + 2 * bet)) ∧
      ((¬ (roll1 : Int) = n ∧ ¬ (roll2 : Int) = n) →
        ((Games.diceroll s gid uid bet (Games.DiceReply.face n) roll1 roll2).1.db.rows
          (gid, uid)).balance = (s.db.rows (gid, uid)).balance - bet ∧
        (Games.diceroll s gid uid bet (Games.DiceReply.face n) roll1 roll2).2
          = Games.DiceOutcome.noMatch ((s.db.rows (gid, uid)).balance - bet))) := by
  have hml : ¬ ((_meets_level s.activity gid uid 10).1 = false) := by
    simp only [_meets_level, _get_total_and_level, decide_eq_false_iff_not]
    omega
  have hbetc : ¬ ¬ (bet = 10 ∨ bet = 50 ∨ bet = 100) := not_not_intro hbet
  have hnb : ¬ ((s.db.rows (gid, uid)).balance < bet) := not_lt.mpr hbal
  refine ⟨?_, ?_, ?_, ?_⟩
  · constructor <;>
      simp [Games.diceroll, hml, hbetc, hnb, Games._add_balance, Games._get_balance,
        Games._set_balance] <;>
      omega
  · constructor <;>
      simp [Games.diceroll, hml, hbetc, hnb, Games._add_balance, Games._get_balance,
        Games._set_balance] <;>
      omega
  · intro hout
    constructor <;>
      simp [Games.diceroll, hml, hbetc, hnb, hout, Games._add_balance,
        Games._get_balance, Games._set_balance] <;>
      omega
  · intro hn1 hn6
    have hin : ¬ (n < 1 ∨ 6 < n) := by omega
    refine ⟨?_, ?_, ?_⟩
    · intro hmm
      constructor <;>
        simp [Games.diceroll, hml, hbetc, hnb, hin, hmm.1, hmm.2, Games._add_balance,
          Games._get_balance, Games._set_balance] <;>
        omega
    · intro hmm
      rcases hmm with ⟨hm1, hm2⟩ | ⟨hm1, hm2⟩ <;>
        constructor <;>
          simp [Games.diceroll, hml, hbetc, hnb, hin, hm1, hm2, Games._add_balance,
            Games._get_balance, Games._set_balance] <;>
          omega
    · intro hmm
      constructor <;>
        simp [Games.diceroll, hml, hbetc, hnb, hin, hmm.1, hmm.2, Games._add_balance,
          Games._get_balance, Games._set_balance] <;>
        omega

/-- Witness for C7: bet 50 at balance 200, face 3, rolls 3 and 5 (one match) credit
150 for a net +100; rolls 2 and 5 (no match) net -50. -/
theorem c7_diceroll_witness :
    ((Games.diceroll
      { db := constDB 200, activity := constActivity 12, bj_state := fun _ => none }
      1 1 50 (Games.DiceReply.face 3) 3 5).1.db.rows (1, 1)).balance = 300 ∧
    ((Games.diceroll
      { db := constDB 200, activity := constActivity 12, bj_state := fun _ => none }
      1 1 50 (Games.DiceReply.face 3) 2 5).1.db.rows (1, 1)).balance = 150 := by
  have h1 := (((c7_diceroll
      { db := constDB 200, activity := constActivity 12, bj_state := fun _ => none }
      1 1 50 3 3 5 (by decide) (by decide) (by decide)).2.2.2
      (by decide) (by decide)).2.1 (Or.inl (by decide))).1
  have h2 := (((c7_diceroll
      { db := constDB 200, activity := constActivity 12, bj_state := fun _ => none }
      1 1 50 3 2 5 (by decide) (by decide) (by decide)).2.2.2
      (by decide) (by decide)).2.2 (by decide)).1
  constructor
  · rw [h1]
    rfl
  · rw [h2]
    rfl

/-- C8: on_message leaves the live count and last-counted stamp unchanged when the
stripped content length is below 3 or when now minus the last-counted stamp is below
the effective cooldown; otherwise it increments live by exactly one and stamps now;
hence two qualifying messages inside one cooldown window count once, and two spaced
at least the cooldown apart count twice. -/
theorem c8_on_message (s : BotState) (gid uid : Nat) (len1 len2 : Nat) (t1 t2 : Int)
    (hl1 : 3 ≤ len1) (hl2 : 3 ≤ len2)
    (hq1 : (get_cooldown s gid : Int) ≤ t1 - s.last_increment (gid, uid)) :
    (∀ len : Nat, ∀ now : Int, len < 3 → on_message s gid uid false len now = s) ∧
    (∀ len : Nat, ∀ now : Int,
      now - s.last_increment (gid, uid) < (get_cooldown s gid : Int) →
      on_message s gid uid false len now = s) ∧
    ((on_message s gid uid false len1 t1).activity.message_counts (gid, uid)
        = s.activity.message_counts (gid, uid) + 1 ∧
     (on_message s gid uid false len1 t1).last_increment (gid, uid) = t1) ∧
    (t2 - t1 < (get_cooldown s gid : Int) →
      (on_message (on_message s gid uid false len1 t1) gid uid false
        len2 t2).activity.message_counts (gid, uid)
        = s.activity.message_counts (gid, uid) + 1) ∧
    ((get_cooldown s gid : Int) ≤ t2 - t1 →
      (on_message (on_message s gid uid false len1 t1) gid uid false
        len2 t2).activity.message_counts (gid, uid)
        = s.activity.message_counts (gid, uid) + 2) := by
  have hnl1 : ¬ (len1 < MIN_COUNTABLE_LEN) := by
    simp only [MIN_COUNTABLE_LEN]
    omega
  have hnc1 : ¬ (t1 - s.last_increment (gid, uid) < (get_cooldown s gid : Int)) := by
    omega
  have hs1 : on_message s gid uid false len1 t1
      = { s with activity := (add_live_count s.activity gid uid 1).1,
                 last_increment := setKey s.last_increment (gid, uid) t1 } := by
    simp only [on_message]
    rw [if_neg (by simp), if_neg hnl1, if_neg hnc1]
  refine ⟨?_, ?_, ?_, ?_, ?_⟩
  · intro len now hlen
    have : len < MIN_COUNTABLE_LEN := by
      simp only [MIN_COUNTABLE_LEN]
      omega
    simp [on_message, this]
  · intro len now hcd
    by_cases hlen : len < MIN_COUNTABLE_LEN
    · simp [on_message, hlen]
    · simp [on_message, hlen, hcd]
  · rw [hs1]
    constructor
    · simp [add_live_count]
    · simp
  · intro hw
    rw [hs1]
    have hc2 : t2 - (setKey s.last_increment (gid, uid) t1) (gid, uid)
        < ((s.cooldown_cache gid : Nat) : Int) := by
      rw [setKey_same]
      simp only [get_cooldown] at hw
      omega
    simp only [on_message, get_cooldown]
    rw [if_neg (by simp)]
    have hnl2 : ¬ (len2 < MIN_COUNTABLE_LEN) := by
      simp only [MIN_COUNTABLE_LEN]
      omega
    rw [if_neg hnl2, if_pos hc2]
    simp [add_live_count]
  · intro hw
    rw [hs1]
    have hc2 : ¬ (t2 - (setKey s.last_increment (gid, uid) t1) (gid, uid)
        < ((s.cooldown_cache gid : Nat) : Int)) := by
      rw [setKey_same]
      simp only [get_cooldown] at hw
      omega
    simp only [on_message, get_cooldown]
    rw [if_neg (by simp)]
    have hnl2 : ¬ (len2 < MIN_COUNTABLE_LEN) := by
      simp only [MIN_COUNTABLE_LEN]
      omega
    rw [if_neg hnl2, if_neg hc2]
    simp [add_live_count] <;> omega

/-- Witness for C8: cooldown 20, first count at t=100, a repeat at t=105 is ignored
while a repeat at t=120 counts. -/
theorem c8_on_message_witness :
    (on_message (on_message
        { activity := constActivity 0, last_increment := fun _ => 0,
          cooldown_cache := fun _ => 20 }
        1 1 false 5 100) 1 1 false 5 105).activity.message_counts (1, 1) = 1 ∧
    (on_message (on_message
        { activity := constActivity 0, last_increment := fun _ => 0,
          cooldown_cache := fun _ => 20 }
        1 1 false 5 100) 1 1 false 5 120).activity.message_counts (1, 1) = 2 := by
  have h1 := (c8_on_message
      { activity := constActivity 0, last_increment := fun _ => 0,
        cooldown_cache := fun _ => 20 }
      1 1 5 5 100 105 (by decide) (by decide) (by decide)).2.2.2.1 (by decide)
  have h2 := (c8_on_message
      { activity := constActivity 0, last_increment := fun _ => 0,
        cooldown_cache := fun _ => 20 }
      1 1 5 5 100 120 (by decide) (by decide) (by decide)).2.2.2.2 (by decide)
  constructor
  · rw [h1]
    rfl
  · rw [h2]
    rfl

/-- C9 counterexample: with live = 50, lv_set to target 10 stores adjusted = 0 (the
clamp) and getTotal returns total 50, not the requested 10, refuting the claim that
the total immediately equals the target for every target. -/
theorem c9_lv_set_counterexample :
    (get_total_count (lv_set
        { activity := constActivity 50, last_increment := fun _ => 0,
          cooldown_cache := fun _ => 20 }
        1 1 10).1.activity 1 1).1 = 50 ∧
    ¬ (get_total_count (lv_set
        { activity := constActivity 50, last_increment := fun _ => 0,
          cooldown_cache := fun _ => 20 }
        1 1 10).1.activity 1 1).1 = 10 := by
  constructor
  · rfl
  · decide

/-- C9 (amended): lv_set stores adjusted = max(0, targetTotal - live) as a full
overwrite; whenever targetTotal is at least live, getTotal then returns exactly
(targetTotal, targetTotal - live, live), and one subsequent live increment makes the
total targetTotal + 1 with adjusted unchanged.  (When targetTotal < live the clamp
stores adjusted = 0 and the total remains live.) -/
theorem c9_lv_set_amended (s : BotState) (gid uid : Nat) (t : Int)
    (ht : 0 ≤ t) (hlive : (s.activity.message_counts (gid, uid) : Int) ≤ t) :
    ((lv_set s gid uid t).1.activity.adjusted (gid, uid)
        = (t - (s.activity.message_counts (gid, uid) : Int)).toNat) ∧
    ((lv_set s gid uid t).2
        = LvSetOutcome.ok (t - (s.activity.message_counts (gid, uid) : Int)).toNat) ∧
    (get_total_count (lv_set s gid uid t).1.activity gid uid
        = (t.toNat, (t - (s.activity.message_counts (gid, uid) : Int)).toNat,
           s.activity.message_counts (gid, uid))) ∧
    (get_total_count (add_live_count (lv_set s gid uid t).1.activity gid uid 1).1 gid uid
        = (t.toNat + 1, (t - (s.activity.message_counts (gid, uid) : Int)).toNat,
           s.activity.message_counts (gid, uid) + 1)) := by
  have hnt : ¬ (t < 0) := by omega
  have hred1 : (lv_set s gid uid t).1.activity
      = set_adjusted_count s.activity gid uid
          (max 0 (t - (s.activity.message_counts (gid, uid) : Int))) := by
    simp only [lv_set, get_total_count]
    rw [if_neg hnt]
  have hred2 : (lv_set s gid uid t).2
      = LvSetOutcome.ok
          (max 0 (t - (s.activity.message_counts (gid, uid) : Int))).toNat := by
    simp only [lv_set, get_total_count]
    rw [if_neg hnt]
  have hadj : (lv_set s gid uid t).1.activity.adjusted (gid, uid)
      = (t - (s.activity.message_counts (gid, uid) : Int)).toNat := by
    rw [hred1]
    simp [set_adjusted_count]
    omega
  have hlivekeep : (lv_set s gid uid t).1.activity.message_counts (gid, uid)
      = s.activity.message_counts (gid, uid) := by
    rw [hred1]
    simp [set_adjusted_count]
  refine ⟨hadj, ?_, ?_, ?_⟩
  · rw [hred2]
    have hh : (max 0 (t - (s.activity.message_counts (gid, uid) : Int))).toNat
        = (t - (s.activity.message_counts (gid, uid) : Int)).toNat := by omega
    rw [hh]
  · simp only [get_total_count]
    rw [hadj, hlivekeep]
    simp [Prod.mk.injEq] <;> omega
  · simp only [get_total_count, add_live_count, setKey_same]
    rw [hadj, hlivekeep]
    simp [Prod.mk.injEq] <;> omega

/-- Witness for C9 (amended): live 50, target 500 stores adjusted 450, getTotal gives
(500, 450, 50), and one live increment gives (501, 450, 51). -/
theorem c9_lv_set_amended_witness :
    get_total_count (lv_set
        { activity := constActivity 50, last_increment := fun _ => 0,
          cooldown_cache := fun _ => 20 }
        1 1 500).1.activity 1 1 = (500, 450, 50) ∧
    get_total_count (add_live_count (lv_set
        { activity := constActivity 50, last_increment := fun _ => 0,
          cooldown_cache := fun _ => 20 }
        1 1 500).1.activity 1 1 1).1 1 1 = (501, 450, 51) := by
  have h := c9_lv_set_amended
    { activity := constActivity 50, last_increment := fun _ => 0,
      cooldown_cache := fun _ => 20 }
    1 1 500 (by decide) (by decide)
  exact ⟨h.2.2.1, h.2.2.2⟩

end Fanfare
